import Mathlib

/-!
# Verification of the CMS course-management backend core

Shallow embedding of the directory importer and progress aggregator of the
NeroQue/CMS repository (Go), together with proofs settling the frozen claims
about it.

Modelling conventions:
* `uuid.UUID` values are modelled as `String` (claims never depend on UUID
  generation; freshly generated IDs are modelled as `""`).
* Go `float32` percentages are modelled as `Rat` (exact arithmetic standing in
  for the floating-point values; the claims are about the formulas).
* `time.Time` / `sql.NullTime` timestamps are modelled as `Nat` / `Option Nat`
  (only ordering via `After` is ever used).
* The persistence collaborator (sqlc `database.Queries`) is modelled as a `DB`
  record of total lookup functions plus the `user_progress` table as a list;
  collaborator calls never fail in the model (the claims under study concern
  the record-absence path, which in the source is `sql.ErrNoRows`, modelled by
  `Option.none`).
* The filesystem is modelled by a tree type `FSEntry` for directory scanning
  (`os.ReadDir` enumeration order is the order of the `children` list), and by
  an abstract `stat`/`readDir` record `FS` for the path-resolution logic of
  `ImportCourse` / `BatchImportCourses`.
-/

namespace CMS

/-! ## Data model (internal/models) -/

/-- `models.ContentItem` (ID and ModuleID as strings, timestamps omitted). -/
structure ContentItem where
  id : String := ""
  moduleID : String := ""
  title : String
  description : String := ""
  relativePath : String
  contentType : String
  duration : Int := 0
  size : Int := 0
  order : Int := 0
deriving Repr, DecidableEq

/-- `models.Module`. The parser never assigns `Order` (Go zero value `0`);
`CreateCourse` overwrites it. -/
structure Module where
  id : String := ""
  courseID : String := ""
  title : String
  description : String := ""
  relativePath : String
  order : Int := 0
  contentItems : List ContentItem := []
deriving Repr, DecidableEq

/-- `models.Course`. -/
structure Course where
  id : String := ""
  title : String
  description : String := ""
  creatorID : String := ""
  basePath : String := ""
  relativePath : String
  modules : List Module := []
deriving Repr, DecidableEq

/-- `models.CreateCourseInput` (fields used by `BatchImportCourses`). -/
structure CreateCourseInput where
  title : String := ""
  basePath : String := ""
  relativePath : String := ""
deriving Repr, DecidableEq

/-- A row of the `user_progress` table / `models.UserProgress`. -/
structure ProgressRecord where
  id : String := ""
  userID : String
  contentItemID : String
  completed : Bool
  progressPct : Rat
  lastPosition : Option Int := none
  lastAccessed : Option Nat := none
deriving Repr, DecidableEq

/-- `models.ModuleProgress`. -/
structure ModuleProgress where
  moduleID : String
  userID : String
  completedItems : Nat
  totalItems : Nat
  completionPct : Rat
  lastAccessedAt : Option Nat := none
  isCompleted : Bool
deriving Repr, DecidableEq

/-- `models.CourseProgress` (`EstimatedTimeLeft` is never set; omitted). -/
structure CourseProgress where
  courseID : String
  userID : String
  completedModules : Nat
  totalModules : Nat
  completedItems : Nat
  totalItems : Nat
  completionPct : Rat
  lastAccessedAt : Option Nat := none
  isCompleted : Bool
deriving Repr, DecidableEq

/-- `models.ProgressSummary`. -/
structure ProgressSummary where
  userID : String
  totalCourses : Nat
  completedCourses : Nat
  inProgressCourses : Nat
  totalTimeSpent : Nat := 0
  streakDays : Nat := 0
deriving Repr, DecidableEq

/-! ## Content-type classification (pkg/parser, `determineContentType`) -/

/-- Go `filepath.Ext`: the suffix beginning at the final dot in the final
path element; empty when there is no dot.  Scans from the end, stopping at a
path separator, exactly as the Go implementation does. -/
def extFromRev (acc : List Char) : List Char → List Char
  | [] => []
  | c :: rest =>
    if c = '/' then []
    else if c = '.' then c :: acc
    else extFromRev (c :: acc) rest

/-- Go `filepath.Ext` on strings. -/
def filepathExt (path : String) : String :=
  String.mk (extFromRev [] path.data.reverse)

/-- Go `strings.ToLower` for the ASCII strings this code compares
(`String.toLower` composed characterwise; stated over the character list so
that it is kernel-reducible). -/
def toLowerStr (s : String) : String :=
  String.mk (s.data.map Char.toLower)

/-- `parser.determineContentType` (pkg/parser): classify a filename by its
lower-cased extension.  Go `strings.ToLower` is modelled by `toLowerStr`
(the extensions in the table are ASCII). -/
def determineContentType (filename : String) : String :=
  let ext := toLowerStr (filepathExt filename)
  if ext = ".mp4" ∨ ext = ".avi" ∨ ext = ".mov" ∨ ext = ".mkv" ∨ ext = ".wmv" then "video"
  else if ext = ".pdf" then "pdf"
  else if ext = ".md" ∨ ext = ".txt" then "text"
  else if ext = ".jpg" ∨ ext = ".jpeg" ∨ ext = ".png" ∨ ext = ".gif" then "image"
  else if ext = ".ppt" ∨ ext = ".pptx" then "presentation"
  else if ext = ".doc" ∨ ext = ".docx" then "document"
  else if ext = ".xls" ∨ ext = ".xlsx" then "spreadsheet"
  else "unknown"

/-! ## Directory scanning (pkg/parser) -/

/-- A filesystem entry as seen by `os.ReadDir`: the order of a `children`
list is the enumeration order of the directory listing. -/
inductive FSEntry where
  | file (name : String) (size : Int)
  | dir (name : String) (children : List FSEntry)
deriving Repr

/-- Whether an entry is a directory (`entry.IsDir()`). -/
def FSEntry.isDirEntry : FSEntry → Bool
  | .file _ _ => false
  | .dir _ _ => true

mutual
/-- One step of `scanModuleForContentRecursive`'s `for i, entry := range
entries` loop body: a directory is recursively flattened, a file becomes one
`ContentItem` with `Order = i` (the entry's index at this level).  `relPath`
is the scanned directory's path relative to the parser base path, so that
`filepath.Rel(basePath, entryPath) = relPath ++ "/" ++ name` for entries of
a directory underneath the base path. -/
def scanEntryForContent (relPath : String) (i : Nat) : FSEntry → List ContentItem
  | .dir name children => scanEntriesForContent (relPath ++ "/" ++ name) 0 children
  | .file name size =>
      [{ title := name
         description := "Content file: " ++ name
         relativePath := relPath ++ "/" ++ name
         contentType := determineContentType name
         size := size
         order := (i : Int) }]

/-- The `for i, entry := range entries` loop of
`scanModuleForContentRecursive`, carrying the running entry index `i`
(directories consume an index as well, exactly as Go's `range` does). -/
def scanEntriesForContent (relPath : String) (i : Nat) : List FSEntry → List ContentItem
  | [] => []
  | e :: rest => scanEntryForContent relPath i e ++ scanEntriesForContent relPath (i + 1) rest
end

/-- `parser.scanModuleForContentRecursive` on a directory whose listing is
`entries` and whose base-relative path is `relPath`.  Unreadable
subdirectories / stat failures are not representable in the tree model (the
source logs and skips them). -/
def scanModuleForContentRecursive (relPath : String) (entries : List FSEntry) : List ContentItem :=
  scanEntriesForContent relPath 0 entries

/-- A course root directory handed to the parser: its base name, its path
relative to the parser base path, and its listing. -/
structure CourseDir where
  name : String
  relPath : String
  entries : List FSEntry
deriving Repr

/-- The body of `scanCourseFolder`'s module-building loop: each directory
entry appends one `Module` (the source appends the module even when its
content scan fails, with empty `ContentItems`; scan failures are not
representable here), files are skipped. -/
def moduleStep (d : CourseDir) (acc : List Module) : FSEntry → List Module
  | .dir name children =>
      acc ++ [{ title := name
                description := "Module: " ++ name
                relativePath := d.relPath ++ "/" ++ name
                contentItems := scanEntriesForContent (d.relPath ++ "/" ++ name) 0 children }]
  | .file _ _ => acc

/-- `parser.scanCourseFolder`: each immediate subdirectory becomes a module;
when there are none, a single default "Main Content" module is synthesized
from the root's recursive file scan. -/
def scanCourseFolder (d : CourseDir) : List Module :=
  let modules := d.entries.foldl (moduleStep d) []
  if modules.isEmpty then
    [{ title := "Main Content"
       description := "Default module for course content"
       relativePath := d.name
       contentItems := scanEntriesForContent d.relPath 0 d.entries }]
  else modules

/-- `parser.ParseCourseFolder` on an existing directory (the `os.Stat` /
not-a-directory failure paths are outside the tree model; `filepath.Rel`
succeeds for a course directory under the base path, giving `d.relPath`). -/
def ParseCourseFolder (basePath : String) (d : CourseDir) : Course :=
  { title := d.name
    description := "Course located at " ++ d.relPath
    basePath := basePath
    relativePath := d.relPath
    modules := scanCourseFolder d }

/-! ## The persistence collaborator (internal/database) -/

/-- The persistence collaborator, modelled as total lookup functions
(`ListModulesByCourse`, `ListContentItemsByModule`, `ListCourses`) plus the
`user_progress` table as a row list. -/
structure DB where
  modulesByCourse : String → List Module
  contentItemsByModule : String → List ContentItem
  courses : List Course
  progress : List ProgressRecord

/-- Whether a `user_progress` row is keyed by the given (user, content item)
pair — the `ON CONFLICT (user_id, content_item_id)` key. -/
def progressKeyMatches (userID contentItemID : String) (r : ProgressRecord) : Bool :=
  r.userID = userID && r.contentItemID = contentItemID

/-- `GetUserProgressByContentItem` (sqlc query): the row for the pair, or
`none` standing for `sql.ErrNoRows`. -/
def GetUserProgressByContentItem (db : DB) (userID contentItemID : String) :
    Option ProgressRecord :=
  db.progress.find? (progressKeyMatches userID contentItemID)

/-- The `user_progress` uniqueness invariant enforced by the database's
composite unique constraint on `(user_id, content_item_id)`: no two rows share
the key. -/
def ProgressKeyed (rows : List ProgressRecord) : Prop :=
  rows.Pairwise (fun a b => ¬(a.userID = b.userID ∧ a.contentItemID = b.contentItemID))

/-- The `UpsertUserProgress` query on the `user_progress` row list:
`ON CONFLICT (user_id, content_item_id) DO UPDATE SET completed, progress_pct,
last_position, last_accessed`, otherwise insert a fresh row. -/
def upsertProgressRows (rows : List ProgressRecord) (userID contentItemID : String)
    (completed : Bool) (progressPct : Rat) (lastPosition : Option Int)
    (lastAccessed : Option Nat) : List ProgressRecord :=
  if rows.any (progressKeyMatches userID contentItemID) then
    rows.map (fun r =>
      if progressKeyMatches userID contentItemID r then
        { r with completed := completed, progressPct := progressPct,
                 lastPosition := lastPosition, lastAccessed := lastAccessed }
      else r)
  else
    rows ++ [{ userID := userID, contentItemID := contentItemID,
               completed := completed, progressPct := progressPct,
               lastPosition := lastPosition, lastAccessed := lastAccessed }]

/-- `UpsertUserProgress` lifted to the collaborator state. -/
def UpsertUserProgress (db : DB) (userID contentItemID : String) (completed : Bool)
    (progressPct : Rat) (lastPosition : Option Int) (lastAccessed : Option Nat) : DB :=
  { db with
    progress := upsertProgressRows db.progress userID contentItemID completed progressPct
      lastPosition lastAccessed }

/-! ## Progress aggregation (internal/services/courses.go) -/

/-- `services.CalculateModuleProgress`: vacuous result on an empty module;
otherwise count items whose progress row exists and has `Completed` (the
`err == nil && progress.Completed` loop), track the latest `last_accessed`
among rows that have one, and derive percentage and completion. -/
def CalculateModuleProgress (db : DB) (userID moduleID : String) : ModuleProgress :=
  let contentItems := db.contentItemsByModule moduleID
  if contentItems.length = 0 then
    { moduleID := moduleID, userID := userID, completedItems := 0, totalItems := 0
      completionPct := 0, isCompleted := true }
  else
    let completedCount := contentItems.countP (fun item =>
      match GetUserProgressByContentItem db userID item.id with
      | some p => p.completed
      | none => false)
    let lastAccessed := contentItems.foldl (fun acc item =>
      match GetUserProgressByContentItem db userID item.id with
      | some p =>
        match p.lastAccessed with
        | some t =>
          match acc with
          | none => some t
          | some l => if t > l then some t else some l
        | none => acc
      | none => acc) none
    { moduleID := moduleID, userID := userID
      completedItems := completedCount
      totalItems := contentItems.length
      completionPct := (completedCount : Rat) / (contentItems.length : Rat) * 100
      lastAccessedAt := lastAccessed
      isCompleted := completedCount == contentItems.length }

/-- The running accumulator of `CalculateCourseProgress`'s module loop. -/
structure CourseAcc where
  completedModules : Nat
  completedItems : Nat
  totalItems : Nat
  lastAccessed : Option Nat
deriving Repr, DecidableEq

/-- The body of `CalculateCourseProgress`'s `for _, module := range modules`
loop (module-progress computation never fails in the model, so the logged
skip-on-error branch is not reachable). -/
def courseStep (db : DB) (userID : String) (acc : CourseAcc) (m : Module) : CourseAcc :=
  let mp := CalculateModuleProgress db userID m.id
  { completedModules := if mp.isCompleted then acc.completedModules + 1 else acc.completedModules
    completedItems := acc.completedItems + mp.completedItems
    totalItems := acc.totalItems + mp.totalItems
    lastAccessed :=
      match mp.lastAccessedAt with
      | some t =>
        match acc.lastAccessed with
        | none => some t
        | some l => if t > l then some t else some l
      | none => acc.lastAccessed }

/-- `services.CalculateCourseProgress`: vacuous result on an empty course;
otherwise accumulate module progress, derive `CompletionPct` from the summed
item counts (0 when there are no items), and complete iff every module is. -/
def CalculateCourseProgress (db : DB) (userID courseID : String) : CourseProgress :=
  let modules := db.modulesByCourse courseID
  if modules.length = 0 then
    { courseID := courseID, userID := userID, completedModules := 0, totalModules := 0
      completedItems := 0, totalItems := 0, completionPct := 0, isCompleted := true }
  else
    let acc := modules.foldl (courseStep db userID)
      { completedModules := 0, completedItems := 0, totalItems := 0, lastAccessed := none }
    let completionPct : Rat :=
      if acc.totalItems > 0 then (acc.completedItems : Rat) / (acc.totalItems : Rat) * 100
      else 0
    { courseID := courseID, userID := userID
      completedModules := acc.completedModules
      totalModules := modules.length
      completedItems := acc.completedItems
      totalItems := acc.totalItems
      completionPct := completionPct
      lastAccessedAt := acc.lastAccessed
      isCompleted := acc.completedModules == modules.length }

/-- The body of `GetUserProgressSummary`'s per-course classification loop:
course progress never fails in the model, so the skip-on-error branch is not
reachable; a course counts only once `CompletedItems > 0`. -/
def summaryStep (db : DB) (userID : String) (acc : Nat × Nat) (course : Course) : Nat × Nat :=
  let cp := CalculateCourseProgress db userID course.id
  if cp.completedItems > 0 then
    if cp.isCompleted then (acc.1 + 1, acc.2) else (acc.1, acc.2 + 1)
  else acc

/-- `GetUserProgressSummary`'s (completedCourses, inProgressCourses) loop. -/
def summaryCounts (db : DB) (userID : String) : Nat × Nat :=
  db.courses.foldl (summaryStep db userID) (0, 0)

/-- `services.GetUserProgressSummary`. -/
def GetUserProgressSummary (db : DB) (userID : String) : ProgressSummary :=
  let counts := summaryCounts db userID
  { userID := userID
    totalCourses := db.courses.length
    completedCourses := counts.1
    inProgressCourses := counts.2 }

/-- `services.MarkContentItemCompleted`: unconditional upsert with
`Completed = true`, `ProgressPct = 100`, a NULL `last_position` (the Go zero
`sql.NullInt32`), and `last_accessed = now`. -/
def MarkContentItemCompleted (db : DB) (userID contentItemID : String) (now : Nat) : DB :=
  UpsertUserProgress db userID contentItemID true 100 none (some now)

/-- `services.UpdateContentItemProgress`: derives `completed := progressPct
>= 100.0`, stores `last_position` only when positive, stamps `last_accessed`. -/
def UpdateContentItemProgress (db : DB) (userID contentItemID : String)
    (progressPct : Rat) (lastPosition : Int) (now : Nat) : DB :=
  let completed := decide (progressPct ≥ 100)
  UpsertUserProgress db userID contentItemID completed progressPct
    (if lastPosition > 0 then some lastPosition else none) (some now)

/-! ## CreateCourse persistence (internal/services/courses.go) -/

/-- The `courses` row written by `CreateCourse`. -/
structure CourseRow where
  id : String
  title : String
  description : String
  creatorID : String
  relativePath : String
deriving Repr, DecidableEq

/-- The `modules` row written by `CreateCourse`. -/
structure ModuleRow where
  id : String
  courseID : String
  title : String
  description : String
  relativePath : String
  order : Int
deriving Repr, DecidableEq

/-- The `content_items` row written by `CreateCourse` (`Duration` / `Size`
become NULL unless positive, matching the `sql.NullInt` wrapping). -/
structure ContentItemRow where
  id : String
  moduleID : String
  title : String
  description : String
  relativePath : String
  contentType : String
  duration : Option Int
  size : Option Int
  order : Int
deriving Repr, DecidableEq

/-- Everything `CreateCourse` persists for one course. -/
structure CourseWrites where
  courseRow : CourseRow
  moduleRows : List ModuleRow
  itemRows : List ContentItemRow
deriving Repr, DecidableEq

/-- `services.CreateCourse`: validation (the `nil` check is not representable;
the empty-title check is lines 340-342 of the source), then the course row,
one module row per module with `Order` overwritten by the loop index `i`, and
one content-item row per item with `Order` overwritten by the item's index `j`
in the module's flattened `ContentItems` list.  Returning `.error` models
returning before any persistence write; the fresh-UUID assignment for nil IDs
is modelled by keeping the given IDs. -/
def CreateCourse (course : Course) : Except String CourseWrites :=
  if course.title = "" then .error "course title is required"
  else
    .ok
      { courseRow :=
          { id := course.id, title := course.title, description := course.description
            creatorID := course.creatorID, relativePath := course.relativePath }
        moduleRows := course.modules.enum.map (fun p =>
          { id := p.2.id, courseID := course.id, title := p.2.title
            description := p.2.description, relativePath := p.2.relativePath
            order := (p.1 : Int) })
        itemRows := course.modules.flatMap (fun m =>
          m.contentItems.enum.map (fun p =>
            let item := p.2
            { id := item.id, moduleID := m.id, title := item.title
              description := item.description, relativePath := item.relativePath
              contentType := item.contentType
              duration := if item.duration > (0 : Int) then some item.duration else none
              size := if item.size > (0 : Int) then some item.size else none
              order := (p.1 : Int) })) }

/-! ## Import path resolution (internal/services/courses.go, `ImportCourse`
and `BatchImportCourses`) -/

/-- The filesystem as seen by the import path resolution: `stat` returns
`some isDir` on success and `none` on error, `readDir` the listing used by
the batch import's directory-name matching. -/
structure FS where
  stat : String → Option Bool
  readDir : String → Option (List FSEntry)

/-- `String.startsWith`, stated over character lists so that it is
kernel-reducible. -/
def strStartsWith (s pre : String) : Bool :=
  List.isPrefixOf pre.data s.data

/-- `String.endsWith`, stated over character lists so that it is
kernel-reducible. -/
def strEndsWith (s suf : String) : Bool :=
  List.isPrefixOf suf.data.reverse s.data.reverse

/-- `filepath.IsAbs` (Unix). -/
def isAbsPath (p : String) : Bool :=
  strStartsWith p "/"

/-- Go `filepath.Join` restricted to the joins this code performs: slash
concatenation with the doubled slash collapsed (Go's `Clean` step for these
inputs; no `.`/`..` elimination is exercised, `".."` only ever appears as a
leading element). -/
def pathJoin (a b : String) : String :=
  if a = "" then b
  else if b = "" then a
  else if strEndsWith a "/" && strStartsWith b "/" then a ++ String.mk (b.data.drop 1)
  else if strEndsWith a "/" || strStartsWith b "/" then a ++ b
  else a ++ "/" ++ b

/-- Go `filepath.Base` for the non-empty relative paths passed here: the last
slash-separated element. -/
def baseName (p : String) : String :=
  match ((p.splitOn "/").filter (fun s => s ≠ "")).getLast? with
  | some s => s
  | none => if strStartsWith p "/" then "/" else "."

/-- Lines 38-59 of `ImportCourse`: relative paths are joined to the parser
base path, and a path under `/courses/` is re-tried with a `../` prefix for
the Docker layout, kept only when the adjusted path is accessible. -/
def importFullPath (fs : FS) (basePath directoryPath : String) : String :=
  let fullPath := if isAbsPath directoryPath then directoryPath
                  else pathJoin basePath directoryPath
  if strStartsWith fullPath "/courses/" then
    let adjustedPath := pathJoin "../" fullPath
    if (fs.stat adjustedPath).isSome then adjustedPath else fullPath
  else fullPath

/-- Lines 61-90 of `ImportCourse`: stat the resolved path; on error fall back
to `test-course` under the base path, then to the same with a `../` prefix;
only when all three fail return the "course directory not accessible" error.
On success the directory actually used is returned together with its
directory flag. -/
def resolveImportPath (fs : FS) (basePath directoryPath : String) :
    Except String (String × Bool) :=
  let fullPath := importFullPath fs basePath directoryPath
  match fs.stat fullPath with
  | some d => .ok (fullPath, d)
  | none =>
    let fallbackPath := pathJoin basePath "test-course"
    match fs.stat fallbackPath with
    | some d => .ok (fallbackPath, d)
    | none =>
      let adjustedFallback := pathJoin "../" fallbackPath
      match fs.stat adjustedFallback with
      | some d => .ok (adjustedFallback, d)
      | none => .error ("course directory not accessible: " ++ fullPath)

/-- `services.ImportCourse` up to directory selection: resolve the path (with
fallbacks), require a directory, and return the directory the import then
parses (`ParseCourseFolder`) and persists (`CreateCourse`); the claims under
study concern only which directory is imported and when the error is
returned. -/
def ImportCourse (fs : FS) (basePath directoryPath : String) : Except String String :=
  match resolveImportPath fs basePath directoryPath with
  | .error e => .error e
  | .ok pd =>
    if pd.2 then .ok pd.1
    else .error ("specified path is not a directory: " ++ pd.1)

/-- Whether a string contains another as a substring (Go `strings.Contains`),
via character lists. -/
def charsHaveSub : List Char → List Char → Bool
  | _, [] => true
  | [], _ :: _ => false
  | a :: as, b :: bs =>
    (a = b && List.isPrefixOf bs as) || charsHaveSub as (b :: bs)

/-- Go `strings.Contains`. -/
def strContains (s sub : String) : Bool :=
  charsHaveSub s.data sub.data

/-- Lines 556-587 of `BatchImportCourses`: scan the `../courses` listing for
the first directory matching the target name exactly, case-insensitively
(`strings.EqualFold`, modelled by lower-casing — the names here are ASCII), or
by the hardcoded "udemy"/"javascript" partial match. -/
def findMatchingDir (entries : List FSEntry) (targetName : String) : Option String :=
  entries.findSome? (fun e =>
    match e with
    | .dir name _ =>
      if name = targetName then some name
      else if toLowerStr name = toLowerStr targetName then some name
      else if strContains (toLowerStr name) "udemy" &&
          strContains (toLowerStr name) "javascript" then
        some name
      else none
    | .file _ _ => none)

/-- Lines 541-592 of `BatchImportCourses`: the Docker path adjustment with the
fuzzy directory-name fallback, applied to the joined directory path. -/
def batchAdjustPath (fs : FS) (relativePath directoryPath : String) : String :=
  if strStartsWith directoryPath "/courses/" then
    let adjustedPath := pathJoin "../" directoryPath
    if (fs.stat adjustedPath).isSome then adjustedPath
    else
      match fs.readDir "../courses" with
      | some entries =>
        match findMatchingDir entries (baseName relativePath) with
        | some name => pathJoin "../courses" name
        | none => directoryPath
      | none => directoryPath
  else directoryPath

/-- The outcome of one iteration of `BatchImportCourses`'s input loop: either
an error is appended to the batch error list, or `ImportCourse` is invoked on
the selected directory path. -/
inductive BatchOutcome where
  | failure (msg : String)
  | importFrom (directoryPath : String)
deriving Repr, DecidableEq

/-- Lines 514-615 of `BatchImportCourses` for a single input: reject an empty
relative path; default the base path to the parser's; join; apply the Docker
adjustment; if the directory is inaccessible use `../courses/test-course` as
last resort, recording a failure only when that fallback is also
inaccessible; otherwise hand the directory to `ImportCourse`.  (The
title-defaulting line only feeds log/error texts and is dropped.) -/
def batchImportStep (fs : FS) (parserBasePath : String) (input : CreateCourseInput) :
    BatchOutcome :=
  if input.relativePath = "" then
    .failure ("relative path is required for course " ++ input.title)
  else
    let bp := if input.basePath = "" then parserBasePath else input.basePath
    let originalPath := pathJoin bp input.relativePath
    let directoryPath := batchAdjustPath fs input.relativePath originalPath
    if (fs.stat directoryPath).isSome then .importFrom directoryPath
    else
      let fallbackPath := pathJoin "../courses" "test-course"
      if (fs.stat fallbackPath).isSome then .importFrom fallbackPath
      else
        .failure ("directory does not exist or is not accessible: " ++ directoryPath ++
          " (original: " ++ originalPath ++ ")")

/-! ## Claims -/


def emptyDB : DB :=
  { modulesByCourse := fun _ => []
    contentItemsByModule := fun _ => []
    courses := []
    progress := [] }

/-- C1 counterexample: on a module with zero content items and a course with
zero modules, `CalculateModuleProgress` / `CalculateCourseProgress` return
`CompletionPct = 0` (with `IsCompleted = true`), not `CompletionPct = 100` as
the claim states. -/
theorem C1_counterexample :
    (CalculateModuleProgress emptyDB "user" "module").completionPct = 0 ∧
    (CalculateModuleProgress emptyDB "user" "module").isCompleted = true ∧
    (CalculateCourseProgress emptyDB "user" "course").completionPct = 0 ∧
    (CalculateCourseProgress emptyDB "user" "course").isCompleted = true ∧
    (0 : Rat) ≠ 100 := by
  refine ⟨rfl, rfl, rfl, rfl, ?_⟩
  norm_num

/-- C1 (amended): for every user, `CalculateModuleProgress` on a module with
zero content items returns 0 completed, 0 total, `CompletionPct = 0` and
`IsCompleted = true`, and `CalculateCourseProgress` on a course with zero
modules returns `CompletionPct = 0` and `IsCompleted = true` (vacuous
completion with a zero, not 100, percentage). -/
theorem C1_amended (db : DB) (userID moduleID courseID : String)
    (hm : db.contentItemsByModule moduleID = [])
    (hc : db.modulesByCourse courseID = []) :
    (CalculateModuleProgress db userID moduleID).completedItems = 0 ∧
    (CalculateModuleProgress db userID moduleID).totalItems = 0 ∧
    (CalculateModuleProgress db userID moduleID).completionPct = 0 ∧
    (CalculateModuleProgress db userID moduleID).isCompleted = true ∧
    (CalculateCourseProgress db userID courseID).completionPct = 0 ∧
    (CalculateCourseProgress db userID courseID).isCompleted = true := by
  simp [CalculateModuleProgress, CalculateCourseProgress, hm, hc]

/-- C1 witness: the amended claim evaluated on the empty collaborator state. -/
theorem C1_witness :
    emptyDB.contentItemsByModule "m" = [] ∧ emptyDB.modulesByCourse "c" = [] ∧
    ((CalculateModuleProgress emptyDB "u" "m").completedItems = 0 ∧
     (CalculateModuleProgress emptyDB "u" "m").totalItems = 0 ∧
     (CalculateModuleProgress emptyDB "u" "m").completionPct = 0 ∧
     (CalculateModuleProgress emptyDB "u" "m").isCompleted = true ∧
     (CalculateCourseProgress emptyDB "u" "c").completionPct = 0 ∧
     (CalculateCourseProgress emptyDB "u" "c").isCompleted = true) :=
  ⟨rfl, rfl, C1_amended emptyDB "u" "m" "c" rfl rfl⟩

/-- C5 counterexample: `.avi` lies outside the claim's fixed extension table,
yet `determineContentType` classifies it as "video", not "unknown" (the
source's table also contains `.avi`, `.mov`, `.mkv`, `.wmv` and `.jpeg`). -/
theorem C5_counterexample :
    determineContentType "lecture.avi" = "video" ∧
    ("video" : String) ≠ "unknown" ∧
    toLowerStr (filepathExt "lecture.avi") ∉
      [".mp4", ".pdf", ".md", ".txt", ".jpg", ".png", ".gif",
       ".ppt", ".pptx", ".doc", ".docx", ".xls", ".xlsx"] := by
  decide


/-- C5 (amended): content-type classification is a pure, deterministic,
case-insensitive function of the file extension, mapping
`.mp4`/`.avi`/`.mov`/`.mkv`/`.wmv` to video, `.pdf` to pdf, `.md`/`.txt` to
text, `.jpg`/`.jpeg`/`.png`/`.gif` to image, `.ppt`/`.pptx` to presentation,
`.doc`/`.docx` to document, `.xls`/`.xlsx` to spreadsheet, and every
extension outside this table to "unknown".  (Directories are never
classified: the scanner only calls `determineContentType` on file entries,
see `scanEntryForContent`.) -/
theorem C5_amended (f g : String) :
    ((toLowerStr (filepathExt f) = toLowerStr (filepathExt g)) →
      determineContentType f = determineContentType g) ∧
    (toLowerStr (filepathExt f) ∈ [".mp4", ".avi", ".mov", ".mkv", ".wmv"] →
      determineContentType f = "video") ∧
    (toLowerStr (filepathExt f) = ".pdf" → determineContentType f = "pdf") ∧
    (toLowerStr (filepathExt f) ∈ [".md", ".txt"] → determineContentType f = "text") ∧
    (toLowerStr (filepathExt f) ∈ [".jpg", ".jpeg", ".png", ".gif"] →
      determineContentType f = "image") ∧
    (toLowerStr (filepathExt f) ∈ [".ppt", ".pptx"] → determineContentType f = "presentation") ∧
    (toLowerStr (filepathExt f) ∈ [".doc", ".docx"] → determineContentType f = "document") ∧
    (toLowerStr (filepathExt f) ∈ [".xls", ".xlsx"] → determineContentType f = "spreadsheet") ∧
    (toLowerStr (filepathExt f) ∉
        [".mp4", ".avi", ".mov", ".mkv", ".wmv", ".pdf", ".md", ".txt", ".jpg", ".jpeg",
         ".png", ".gif", ".ppt", ".pptx", ".doc", ".docx", ".xls", ".xlsx"] →
      determineContentType f = "unknown") := by
  refine ⟨?_, ?_, ?_, ?_, ?_, ?_, ?_, ?_, ?_⟩
  · intro h
    simp only [determineContentType]
    rw [h]
  · intro h
    simp only [List.mem_cons, List.not_mem_nil, or_false] at h
    rcases h with h|h|h|h|h <;> (simp only [determineContentType]; rw [h]; decide)
  · intro h
    simp only [determineContentType]; rw [h]; decide
  · intro h
    simp only [List.mem_cons, List.not_mem_nil, or_false] at h
    rcases h with h|h <;> (simp only [determineContentType]; rw [h]; decide)
  · intro h
    simp only [List.mem_cons, List.not_mem_nil, or_false] at h
    rcases h with h|h|h|h <;> (simp only [determineContentType]; rw [h]; decide)
  · intro h
    simp only [List.mem_cons, List.not_mem_nil, or_false] at h
    rcases h with h|h <;> (simp only [determineContentType]; rw [h]; decide)
  · intro h
    simp only [List.mem_cons, List.not_mem_nil, or_false] at h
    rcases h with h|h <;> (simp only [determineContentType]; rw [h]; decide)
  · intro h
    simp only [List.mem_cons, List.not_mem_nil, or_false] at h
    rcases h with h|h <;> (simp only [determineContentType]; rw [h]; decide)
  · intro h
    simp only [List.mem_cons, List.not_mem_nil, or_false, not_or] at h
    push_neg at h
    obtain ⟨h1, h2, h3, h4, h5, h6, h7, h8, h9, h10, h11, h12, h13, h14, h15, h16, h17, h18⟩ := h
    simp [determineContentType, h1, h2, h3, h4, h5, h6, h7, h8, h9, h10, h11, h12, h13,
      h14, h15, h16, h17, h18]

/-- C5 witness: the amended table evaluated at concrete filenames. -/
theorem C5_amended_witness :
    determineContentType "Movie.MP4" = determineContentType "movie.mp4" ∧
    determineContentType "movie.mp4" = "video" ∧
    determineContentType "notes.bin" = "unknown" :=
  ⟨(C5_amended "Movie.MP4" "movie.mp4").1 (by decide),
   (C5_amended "movie.mp4" "movie.mp4").2.1 (by decide),
   (C5_amended "notes.bin" "notes.bin").2.2.2.2.2.2.2.2 (by decide)⟩


theorem keyMatches_update (u i : String) (r : ProgressRecord) (c : Bool) (p : Rat)
    (lp : Option Int) (la : Option Nat) :
    progressKeyMatches u i
      { r with completed := c, progressPct := p, lastPosition := lp, lastAccessed := la } =
    progressKeyMatches u i r := rfl

theorem find_map_upsert (u i : String) (c : Bool) (p : Rat) (lp : Option Int)
    (la : Option Nat) :
    ∀ rows : List ProgressRecord, rows.any (progressKeyMatches u i) = true →
    ((rows.map (fun r => if progressKeyMatches u i r then
        { r with completed := c, progressPct := p, lastPosition := lp, lastAccessed := la }
      else r)).find? (progressKeyMatches u i)).map
      (fun r => (r.completed, r.progressPct, r.lastPosition, r.lastAccessed)) =
      some (c, p, lp, la) := by
  intro rows hany
  induction rows with
  | nil => simp at hany
  | cons r rest ih =>
    by_cases hk : progressKeyMatches u i r = true
    · simp only [List.map_cons, hk, if_true]
      rw [List.find?_cons_of_pos]
      · simp
      · rw [keyMatches_update]; exact hk
    · simp only [List.any_cons, hk, Bool.false_or] at hany
      simp only [List.map_cons, hk, if_false]
      rw [List.find?_cons_of_neg]
      · exact ih hany
      · simp [hk]

theorem find_append_new (u i : String) (nr : ProgressRecord)
    (hnr : progressKeyMatches u i nr = true) :
    ∀ rows : List ProgressRecord, rows.any (progressKeyMatches u i) = false →
    (rows ++ [nr]).find? (progressKeyMatches u i) = some nr := by
  intro rows hany
  induction rows with
  | nil => simp [List.find?_cons_of_pos, hnr]
  | cons r rest ih =>
    simp only [List.any_cons, Bool.or_eq_false_iff] at hany
    rw [List.cons_append, List.find?_cons_of_neg]
    · exact ih hany.2
    · simp [hany.1]

theorem upsertProgressRows_find (rows : List ProgressRecord) (u i : String) (c : Bool)
    (p : Rat) (lp : Option Int) (la : Option Nat) :
    ((upsertProgressRows rows u i c p lp la).find? (progressKeyMatches u i)).map
      (fun r => (r.completed, r.progressPct, r.lastPosition, r.lastAccessed)) =
      some (c, p, lp, la) := by
  unfold upsertProgressRows
  by_cases hany : rows.any (progressKeyMatches u i) = true
  · rw [if_pos hany]
    exact find_map_upsert u i c p lp la rows hany
  · rw [if_neg hany]
    rw [find_append_new u i _ (by simp [progressKeyMatches]) rows
      (by simpa using hany)]
    rfl

/-- C6: for every (user, content item) pair, `MarkContentItemCompleted`
upserts the progress record with `ProgressPct = 100` and `Completed = true`
unconditionally, whereas `UpdateContentItemProgress` upserts with the
caller's percentage and derives `Completed` as `pct >= 100.0`; the two entry
points implement these two distinct completion-derivation rules. -/
theorem C6_two_completion_rules (db : DB) (userID contentItemID : String) (progressPct : Rat)
    (lastPosition : Int) (now : Nat) :
    ((GetUserProgressByContentItem (MarkContentItemCompleted db userID contentItemID now)
        userID contentItemID).map
      (fun r => (r.completed, r.progressPct, r.lastPosition, r.lastAccessed)) =
      some (true, 100, none, some now)) ∧
    ((GetUserProgressByContentItem
        (UpdateContentItemProgress db userID contentItemID progressPct lastPosition now)
        userID contentItemID).map
      (fun r => (r.completed, r.progressPct, r.lastPosition, r.lastAccessed)) =
      some (decide (progressPct ≥ 100), progressPct,
        if lastPosition > 0 then some lastPosition else none, some now)) :=
  ⟨upsertProgressRows_find db.progress userID contentItemID true 100 none (some now),
   upsertProgressRows_find db.progress userID contentItemID _ progressPct _ (some now)⟩


theorem summary_fold (db : DB) (userID : String) :
    ∀ (cs : List Course) (a b : Nat),
      cs.foldl (summaryStep db userID) (a, b) =
        (a + cs.countP (fun course =>
            decide (0 < (CalculateCourseProgress db userID course.id).completedItems) &&
            (CalculateCourseProgress db userID course.id).isCompleted),
         b + cs.countP (fun course =>
            decide (0 < (CalculateCourseProgress db userID course.id).completedItems) &&
            !(CalculateCourseProgress db userID course.id).isCompleted)) := by
  intro cs
  induction cs with
  | nil => intro a b; simp
  | cons c rest ih =>
    intro a b
    simp only [List.foldl_cons, List.countP_cons]
    by_cases h1 : 0 < (CalculateCourseProgress db userID c.id).completedItems
    · by_cases h2 : (CalculateCourseProgress db userID c.id).isCompleted = true
      · simp only [summaryStep, if_pos h1, h2, if_true, ih]
        simp [h1, h2]
        omega
      · simp only [summaryStep, if_pos h1, Bool.not_eq_true] at h2 ⊢
        simp only [h2, if_false, ih]
        simp [h1, h2]
        omega
    · simp only [summaryStep, if_neg h1, ih]
      simp [h1]

/-- C7 (amended): `GetUserProgressSummary` counts a course as completed iff
its `CourseProgress` has `CompletedItems > 0` and `IsCompleted`, as
in-progress iff `CompletedItems > 0` and not completed, and otherwise counts
it in neither category — a course with `IsCompleted = true` but zero
completed items (for example a course whose modules are all empty) is not
counted as completed, contrary to the claim's "completed if IsCompleted". -/
theorem C7_amended (db : DB) (userID : String) :
    (GetUserProgressSummary db userID).completedCourses =
      db.courses.countP (fun course =>
        decide (0 < (CalculateCourseProgress db userID course.id).completedItems) &&
        (CalculateCourseProgress db userID course.id).isCompleted) ∧
    (GetUserProgressSummary db userID).inProgressCourses =
      db.courses.countP (fun course =>
        decide (0 < (CalculateCourseProgress db userID course.id).completedItems) &&
        !(CalculateCourseProgress db userID course.id).isCompleted) ∧
    (GetUserProgressSummary db userID).totalCourses = db.courses.length := by
  have h := summary_fold db userID db.courses 0 0
  refine ⟨?_, ?_, rfl⟩
  · show (db.courses.foldl (summaryStep db userID) (0, 0)).1 = _
    rw [h]
    simp
  · show (db.courses.foldl (summaryStep db userID) (0, 0)).2 = _
    rw [h]
    simp

def dbC7 : DB :=
  { modulesByCourse := fun _ => []
    contentItemsByModule := fun _ => []
    courses := [{ id := "c", title := "T", relativePath := "p" }]
    progress := [] }

/-- C7 counterexample: a course with no modules has `IsCompleted = true` but
is not counted as completed by `GetUserProgressSummary` (its
`CompletedItems` is 0), refuting "counts a course as completed if that
course's CourseProgress.IsCompleted is true". -/
theorem C7_counterexample :
    (CalculateCourseProgress dbC7 "u" "c").isCompleted = true ∧
    (CalculateCourseProgress dbC7 "u" "c").completedItems = 0 ∧
    (GetUserProgressSummary dbC7 "u").completedCourses = 0 := ⟨rfl, rfl, rfl⟩


theorem findCompleted_iff (u i : String) :
    ∀ (rows : List ProgressRecord), ProgressKeyed rows →
    ((match rows.find? (progressKeyMatches u i) with
      | some p => p.completed
      | none => false) = true ↔
      ∃ r ∈ rows, r.userID = u ∧ r.contentItemID = i ∧ r.completed = true) := by
  intro rows hk
  induction rows with
  | nil => simp
  | cons r rest ih =>
    rw [ProgressKeyed, List.pairwise_cons] at hk
    obtain ⟨hr, hrest⟩ := hk
    by_cases hm : progressKeyMatches u i r = true
    · rw [List.find?_cons_of_pos _ hm]
      simp only [progressKeyMatches, Bool.and_eq_true, decide_eq_true_eq] at hm
      constructor
      · intro hc
        exact ⟨r, List.mem_cons_self r rest, hm.1, hm.2, hc⟩
      · rintro ⟨s, hs, hsu, hsi, hsc⟩
        rcases List.mem_cons.mp hs with h | hs
        · subst h
          exact hsc
        · exact absurd ⟨hm.1.trans hsu.symm, hm.2.trans hsi.symm⟩ (hr s hs)
    · rw [List.find?_cons_of_neg _ hm]
      rw [ih hrest]
      simp only [progressKeyMatches, Bool.and_eq_true, decide_eq_true_eq, not_and] at hm
      constructor
      · rintro ⟨s, hs, h⟩
        exact ⟨s, List.mem_cons_of_mem r hs, h⟩
      · rintro ⟨s, hs, hsu, hsi, hsc⟩
        rcases List.mem_cons.mp hs with h | hs
        · subst h
          exact absurd hsi (hm hsu)
        · exact ⟨s, hs, hsu, hsi, hsc⟩

/-- C3: for every user and module with at least one content item (and the
database's (user, item) uniqueness invariant on `user_progress`),
`CalculateModuleProgress` counts an item as completed iff a progress record
exists for the pair with `Completed = true` (absence counts as not
completed and raises no error — the lookup is total), returns
`CompletionPct = 100 * completed / total`, and `IsCompleted` iff
`completed = total`. -/
theorem C3_module_progress (db : DB) (userID moduleID : String)
    (hkeyed : ProgressKeyed db.progress)
    (hne : db.contentItemsByModule moduleID ≠ []) :
    (CalculateModuleProgress db userID moduleID).totalItems =
        (db.contentItemsByModule moduleID).length ∧
    (CalculateModuleProgress db userID moduleID).completedItems =
        (db.contentItemsByModule moduleID).countP (fun item =>
          decide (∃ r ∈ db.progress, r.userID = userID ∧ r.contentItemID = item.id ∧
            r.completed = true)) ∧
    (CalculateModuleProgress db userID moduleID).completionPct =
        100 * ((CalculateModuleProgress db userID moduleID).completedItems : Rat) /
          ((CalculateModuleProgress db userID moduleID).totalItems : Rat) ∧
    ((CalculateModuleProgress db userID moduleID).isCompleted = true ↔
        (CalculateModuleProgress db userID moduleID).completedItems =
          (CalculateModuleProgress db userID moduleID).totalItems) := by
  have hlen : ¬((db.contentItemsByModule moduleID).length = 0) :=
    fun h => hne (List.eq_nil_of_length_eq_zero h)
  refine ⟨?_, ?_, ?_, ?_⟩
  · simp only [CalculateModuleProgress, if_neg hlen]
  · simp only [CalculateModuleProgress, GetUserProgressByContentItem, if_neg hlen]
    apply List.countP_congr
    intro item _
    rw [findCompleted_iff userID item.id db.progress hkeyed]
    simp
  · simp only [CalculateModuleProgress, if_neg hlen]
    ring
  · simp only [CalculateModuleProgress, if_neg hlen]
    simp [Nat.beq_eq_true_eq]


theorem moduleProgress_completed_le (db : DB) (userID moduleID : String) :
    (CalculateModuleProgress db userID moduleID).completedItems ≤
      (CalculateModuleProgress db userID moduleID).totalItems := by
  by_cases h : (db.contentItemsByModule moduleID).length = 0
  · simp only [CalculateModuleProgress, if_pos h]
    exact le_rfl
  · simp only [CalculateModuleProgress, if_neg h]
    exact List.countP_le_length _

theorem courseFold_spec (db : DB) (userID : String) :
    ∀ (ms : List Module) (a : CourseAcc),
      ((ms.foldl (courseStep db userID) a).completedModules =
        a.completedModules +
          ms.countP (fun m => (CalculateModuleProgress db userID m.id).isCompleted)) ∧
      ((ms.foldl (courseStep db userID) a).completedItems =
        a.completedItems +
          (ms.map (fun m => (CalculateModuleProgress db userID m.id).completedItems)).sum) ∧
      ((ms.foldl (courseStep db userID) a).totalItems =
        a.totalItems +
          (ms.map (fun m => (CalculateModuleProgress db userID m.id).totalItems)).sum) := by
  intro ms
  induction ms with
  | nil => intro a; simp
  | cons m rest ih =>
    intro a
    simp only [List.foldl_cons, List.map_cons, List.sum_cons, List.countP_cons]
    obtain ⟨h1, h2, h3⟩ := ih (courseStep db userID a m)
    refine ⟨?_, ?_, ?_⟩
    · rw [h1]
      by_cases hc : (CalculateModuleProgress db userID m.id).isCompleted = true
      · simp only [courseStep, hc, if_true]
        omega
      · simp only [courseStep, hc, if_false]
        simp only [Bool.not_eq_true] at hc
        simp [hc]
    · rw [h2]
      simp only [courseStep]
      omega
    · rw [h3]
      simp only [courseStep]
      omega

/-- C2: for every user and course with at least one module,
`CalculateCourseProgress` returns `CompletionPct` equal to
`100 * (sum of completed items across modules) / (sum of total items)` —
derived from the item-level sums, not from averaging module percentages —
and `IsCompleted = true` iff `CompletedModules = TotalModules`. -/
theorem C2_course_progress (db : DB) (userID courseID : String)
    (hne : db.modulesByCourse courseID ≠ []) :
    (CalculateCourseProgress db userID courseID).completionPct =
      100 * ((((db.modulesByCourse courseID).map
          (fun m => (CalculateModuleProgress db userID m.id).completedItems)).sum : Rat) /
        ((((db.modulesByCourse courseID).map
          (fun m => (CalculateModuleProgress db userID m.id).totalItems)).sum : Rat))) ∧
    (CalculateCourseProgress db userID courseID).completedItems =
      ((db.modulesByCourse courseID).map
        (fun m => (CalculateModuleProgress db userID m.id).completedItems)).sum ∧
    (CalculateCourseProgress db userID courseID).totalItems =
      ((db.modulesByCourse courseID).map
        (fun m => (CalculateModuleProgress db userID m.id).totalItems)).sum ∧
    ((CalculateCourseProgress db userID courseID).isCompleted = true ↔
      (CalculateCourseProgress db userID courseID).completedModules =
        (CalculateCourseProgress db userID courseID).totalModules) := by
  have hlen : ¬((db.modulesByCourse courseID).length = 0) :=
    fun h => hne (List.eq_nil_of_length_eq_zero h)
  obtain ⟨hcm, hci, hti⟩ := courseFold_spec db userID (db.modulesByCourse courseID)
    { completedModules := 0, completedItems := 0, totalItems := 0, lastAccessed := none }
  simp only [Nat.zero_add] at hcm hci hti
  refine ⟨?_, ?_, ?_, ?_⟩
  · simp only [CalculateCourseProgress, if_neg hlen, hci, hti]
    by_cases hpos : 0 < ((db.modulesByCourse courseID).map
        (fun m => (CalculateModuleProgress db userID m.id).totalItems)).sum
    · rw [if_pos hpos]
      ring
    · rw [if_neg hpos]
      have htz : ((db.modulesByCourse courseID).map
          (fun m => (CalculateModuleProgress db userID m.id).totalItems)).sum = 0 := by omega
      have hcz : ((db.modulesByCourse courseID).map
          (fun m => (CalculateModuleProgress db userID m.id).completedItems)).sum = 0 := by
        have hle : ((db.modulesByCourse courseID).map
            (fun m => (CalculateModuleProgress db userID m.id).completedItems)).sum ≤
            ((db.modulesByCourse courseID).map
            (fun m => (CalculateModuleProgress db userID m.id).totalItems)).sum := by
          apply List.sum_le_sum
          intro m _
          exact moduleProgress_completed_le db userID m.id
        omega
      rw [htz, hcz]
      norm_num
  · simp only [CalculateCourseProgress, if_neg hlen, hci]
  · simp only [CalculateCourseProgress, if_neg hlen, hti]
  · simp only [CalculateCourseProgress, if_neg hlen]
    simp [Nat.beq_eq_true_eq]


/-- A concrete collaborator state for the module-progress witness: one module
"m" with two items, the first completed. -/
def dbC3 : DB :=
  { modulesByCourse := fun _ => []
    contentItemsByModule := fun mid =>
      if mid = "m" then
        [{ id := "i1", title := "v.mp4", relativePath := "c/m/v.mp4", contentType := "video" },
         { id := "i2", title := "n.pdf", relativePath := "c/m/n.pdf", contentType := "pdf" }]
      else []
    courses := []
    progress := [{ userID := "u", contentItemID := "i1", completed := true, progressPct := 100 }] }

/-- C3 witness: the module-progress contract evaluated on a concrete module
with one of two items completed. -/
theorem C3_witness :
    ProgressKeyed dbC3.progress ∧ dbC3.contentItemsByModule "m" ≠ [] ∧
    ((CalculateModuleProgress dbC3 "u" "m").totalItems =
        (dbC3.contentItemsByModule "m").length ∧
     (CalculateModuleProgress dbC3 "u" "m").completedItems =
        (dbC3.contentItemsByModule "m").countP (fun item =>
          decide (∃ r ∈ dbC3.progress, r.userID = "u" ∧ r.contentItemID = item.id ∧
            r.completed = true)) ∧
     (CalculateModuleProgress dbC3 "u" "m").completionPct =
        100 * ((CalculateModuleProgress dbC3 "u" "m").completedItems : Rat) /
          ((CalculateModuleProgress dbC3 "u" "m").totalItems : Rat) ∧
     ((CalculateModuleProgress dbC3 "u" "m").isCompleted = true ↔
        (CalculateModuleProgress dbC3 "u" "m").completedItems =
          (CalculateModuleProgress dbC3 "u" "m").totalItems)) :=
  ⟨by simp [ProgressKeyed, dbC3], by decide,
   C3_module_progress dbC3 "u" "m" (by simp [ProgressKeyed, dbC3]) (by decide)⟩

/-- A concrete collaborator state for the course-progress witness: course
"crs" with an asymmetric pair of modules (1/1 and 0/3 items completed). -/
def dbC2 : DB :=
  { modulesByCourse := fun cid =>
      if cid = "crs" then
        [{ id := "A", title := "A", relativePath := "crs/A" },
         { id := "B", title := "B", relativePath := "crs/B" }]
      else []
    contentItemsByModule := fun mid =>
      if mid = "A" then
        [{ id := "a1", title := "a.mp4", relativePath := "crs/A/a.mp4", contentType := "video" }]
      else if mid = "B" then
        [{ id := "b1", title := "b1.pdf", relativePath := "crs/B/b1.pdf", contentType := "pdf" },
         { id := "b2", title := "b2.pdf", relativePath := "crs/B/b2.pdf", contentType := "pdf" },
         { id := "b3", title := "b3.pdf", relativePath := "crs/B/b3.pdf", contentType := "pdf" }]
      else []
    courses := [{ id := "crs", title := "Course", relativePath := "crs" }]
    progress := [{ userID := "u", contentItemID := "a1", completed := true, progressPct := 100 }] }

/-- C2 witness: the course-progress formula evaluated on an asymmetric course
(module A with 1/1 items completed, module B with 0/3). -/
theorem C2_witness :
    dbC2.modulesByCourse "crs" ≠ [] ∧
    ((CalculateCourseProgress dbC2 "u" "crs").completionPct =
      100 * ((((dbC2.modulesByCourse "crs").map
          (fun m => (CalculateModuleProgress dbC2 "u" m.id).completedItems)).sum : Rat) /
        ((((dbC2.modulesByCourse "crs").map
          (fun m => (CalculateModuleProgress dbC2 "u" m.id).totalItems)).sum : Rat))) ∧
    (CalculateCourseProgress dbC2 "u" "crs").completedItems =
      ((dbC2.modulesByCourse "crs").map
        (fun m => (CalculateModuleProgress dbC2 "u" m.id).completedItems)).sum ∧
    (CalculateCourseProgress dbC2 "u" "crs").totalItems =
      ((dbC2.modulesByCourse "crs").map
        (fun m => (CalculateModuleProgress dbC2 "u" m.id).totalItems)).sum ∧
    ((CalculateCourseProgress dbC2 "u" "crs").isCompleted = true ↔
      (CalculateCourseProgress dbC2 "u" "crs").completedModules =
        (CalculateCourseProgress dbC2 "u" "crs").totalModules)) :=
  ⟨by decide, C2_course_progress dbC2 "u" "crs" (by decide)⟩


mutual
/-- The names of all files found by recursive descent from one entry. -/
def filesOfEntry : FSEntry → List String
  | .file name _ => [name]
  | .dir _ children => filesOfEntries children

/-- The names of all files found by recursive descent through a listing. -/
def filesOfEntries : List FSEntry → List String
  | [] => []
  | e :: rest => filesOfEntry e ++ filesOfEntries rest
end

mutual
theorem scanEntry_titles (relPath : String) (i : Nat) (e : FSEntry) :
    (scanEntryForContent relPath i e).map (fun it => it.title) = filesOfEntry e := by
  match e with
  | .file name size => simp [scanEntryForContent, filesOfEntry]
  | .dir name children =>
    simp only [scanEntryForContent, filesOfEntry]
    exact scanEntries_titles (relPath ++ "/" ++ name) 0 children

theorem scanEntries_titles (relPath : String) (i : Nat) (es : List FSEntry) :
    (scanEntriesForContent relPath i es).map (fun it => it.title) = filesOfEntries es := by
  match es with
  | [] => simp [scanEntriesForContent, filesOfEntries]
  | e :: rest =>
    simp only [scanEntriesForContent, filesOfEntries, List.map_append]
    rw [scanEntry_titles relPath i e, scanEntries_titles relPath (i + 1) rest]
end

theorem moduleFold_no_dirs (d : CourseDir) :
    ∀ (es : List FSEntry) (acc : List Module),
      (∀ e ∈ es, e.isDirEntry = false) → es.foldl (moduleStep d) acc = acc := by
  intro es
  induction es with
  | nil => intro acc _; rfl
  | cons e rest ih =>
    intro acc h
    have he := h e (List.mem_cons_self e rest)
    match e with
    | .file name size =>
      simp only [List.foldl_cons, moduleStep]
      exact ih acc (fun x hx => h x (List.mem_cons_of_mem _ hx))
    | .dir name children => simp [FSEntry.isDirEntry] at he

theorem scanCourseFolder_flat (d : CourseDir)
    (h : ∀ e ∈ d.entries, e.isDirEntry = false) :
    scanCourseFolder d =
      [{ title := "Main Content"
         description := "Default module for course content"
         relativePath := d.name
         contentItems := scanEntriesForContent d.relPath 0 d.entries }] := by
  simp only [scanCourseFolder, moduleFold_no_dirs d d.entries [] h, List.isEmpty_nil, if_true]

/-- C4: for every course root directory with no immediate subdirectories,
`ParseCourseFolder` produces exactly one module, titled "Main Content",
whose content items are all files found by recursive descent under the root
(`filesOfEntries` is the recursive-descent file collection). -/
theorem C4_flat_course (basePath : String) (d : CourseDir)
    (h : ∀ e ∈ d.entries, e.isDirEntry = false) :
    (ParseCourseFolder basePath d).modules.length = 1 ∧
    ∀ m ∈ (ParseCourseFolder basePath d).modules,
      m.title = "Main Content" ∧
      m.contentItems.map (fun it => it.title) = filesOfEntries d.entries := by
  have hsc := scanCourseFolder_flat d h
  constructor
  · simp [ParseCourseFolder, hsc]
  · intro m hm
    simp only [ParseCourseFolder] at hm
    rw [hsc] at hm
    simp only [List.mem_singleton] at hm
    subst hm
    exact ⟨rfl, scanEntries_titles d.relPath 0 d.entries⟩

/-- A flat course directory for the witness. -/
def dC4 : CourseDir :=
  { name := "flat", relPath := "flat", entries := [.file "a.mp4" 5, .file "b.pdf" 3] }

/-- C4 witness: the flat-directory contract evaluated on a concrete
two-file directory. -/
theorem C4_witness :
    (∀ e ∈ dC4.entries, e.isDirEntry = false) ∧
    ((ParseCourseFolder "/base" dC4).modules.length = 1 ∧
     ∀ m ∈ (ParseCourseFolder "/base" dC4).modules,
       m.title = "Main Content" ∧
       m.contentItems.map (fun it => it.title) = filesOfEntries dC4.entries) :=
  ⟨by decide, C4_flat_course "/base" dC4 (by decide)⟩


theorem scan_mem_of_file (relPath : String) :
    ∀ (entries : List FSEntry) (k i : Nat) (name : String) (size : Int),
      entries.get? i = some (.file name size) →
      ({ title := name
         description := "Content file: " ++ name
         relativePath := relPath ++ "/" ++ name
         contentType := determineContentType name
         size := size
         order := ((k + i : Nat) : Int) } : ContentItem) ∈
        scanEntriesForContent relPath k entries := by
  intro entries
  induction entries with
  | nil => intro k i name size h; simp at h
  | cons e rest ih =>
    intro k i name size h
    cases i with
    | zero =>
      simp only [List.get?_cons_zero, Option.some.injEq] at h
      subst h
      simp only [scanEntriesForContent, scanEntryForContent, Nat.add_zero]
      exact List.mem_append_left _ (List.mem_singleton_self _)
    | succ j =>
      simp only [List.get?_cons_succ] at h
      have hmem := ih (k + 1) j name size h
      have harith : k + 1 + j = k + (j + 1) := by omega
      rw [harith] at hmem
      exact List.mem_append_right _ hmem

theorem flatMap_map_congr {α β γ : Type} (f : α → List β) (g : β → γ) (h : α → List γ) :
    ∀ l : List α, (∀ a ∈ l, (f a).map g = h a) → (l.flatMap f).map g = l.flatMap h := by
  intro l
  induction l with
  | nil => intro _; rfl
  | cons x xs ih =>
    intro hp
    simp only [List.flatMap_cons, List.map_append]
    rw [hp x (List.mem_cons_self x xs), ih (fun a ha => hp a (List.mem_cons_of_mem x ha))]

theorem enum_fst_map (g : Nat → Int) (l : List ContentItem) :
    l.enum.map (fun p => g p.1) = (List.range l.length).map g := by
  rw [← List.enum_map_fst l, List.map_map]
  rfl

theorem createCourse_item_orders (course : Course) (w : CourseWrites)
    (hok : CreateCourse course = .ok w) :
    w.itemRows.map (fun r => r.order) =
      course.modules.flatMap (fun m =>
        (List.range m.contentItems.length).map Int.ofNat) := by
  unfold CreateCourse at hok
  by_cases ht : course.title = ""
  · rw [if_pos ht] at hok
    cases hok
  · rw [if_neg ht] at hok
    cases hok
    apply flatMap_map_congr
    intro m _
    rw [List.map_map]
    exact enum_fst_map Int.ofNat m.contentItems

/-- C8 (amended): in the tree returned by the parser, a file's `ContentItem`
carries `Order` equal to the file's enumeration index among the entries at
the directory level where it is found; but `CreateCourse` reassigns each
persisted content-item row's `Order` to the item's position in its module's
flattened item list (`0, 1, 2, …` per module), so the persisted order is
not the per-level enumeration position when modules contain nested
subdirectories. -/
theorem C8_amended (rel : String) (entries : List FSEntry) (i : Nat) (name : String)
    (size : Int) (course : Course) (w : CourseWrites)
    (hfile : entries.get? i = some (.file name size))
    (hok : CreateCourse course = .ok w) :
    ({ title := name
       description := "Content file: " ++ name
       relativePath := rel ++ "/" ++ name
       contentType := determineContentType name
       size := size
       order := (i : Int) } : ContentItem) ∈ scanModuleForContentRecursive rel entries ∧
    w.itemRows.map (fun r => r.order) =
      course.modules.flatMap (fun m =>
        (List.range m.contentItems.length).map Int.ofNat) := by
  constructor
  · have hmem := scan_mem_of_file rel entries 0 i name size hfile
    rw [Nat.zero_add] at hmem
    exact hmem
  · exact createCourse_item_orders course w hok

/-- A course directory whose module "M" holds a file and then a nested
subdirectory with another file: the nested file has `Order = 0` in the parsed
tree (its index at its own level) but `Order = 1` in the persisted rows. -/
def dC8 : CourseDir :=
  { name := "course8", relPath := "course8"
    entries := [.dir "M" [.file "a.mp4" 1, .dir "sub" [.file "c.mp4" 2]]] }

/-- The listing of module "M" inside `dC8`. -/
def entriesM : List FSEntry := [.file "a.mp4" 1, .dir "sub" [.file "c.mp4" 2]]

def courseC8 : Course := ParseCourseFolder "/base" dC8

/-- C8 counterexample: for a module holding a file followed by a nested
subdirectory with a second file, the parsed tree gives both items `Order =
0` (their per-level indices) while `CreateCourse` persists orders `0, 1` —
so the persisted `Order` is not the per-level enumeration position. -/
theorem C8_counterexample :
    (courseC8.modules.map (fun m => m.contentItems.map (fun it => it.order))) = [[0, 0]] ∧
    (CreateCourse courseC8).toOption.map (fun w => w.itemRows.map (fun r => r.order)) =
      some [0, 1] ∧
    ((0 : Int) ≠ 1) := by
  refine ⟨by decide, by decide, by norm_num⟩

/-- C8 witness: the amended order contract evaluated on the concrete nested
module. -/
theorem C8_witness :
    entriesM.get? 0 = some (.file "a.mp4" 1) ∧
    (({ title := "a.mp4"
        description := "Content file: " ++ "a.mp4"
        relativePath := "course8/M" ++ "/" ++ "a.mp4"
        contentType := determineContentType "a.mp4"
        size := 1
        order := ((0 : Nat) : Int) } : ContentItem) ∈
      scanModuleForContentRecursive "course8/M" entriesM) ∧
    (CreateCourse courseC8).toOption.map (fun w => w.itemRows.map (fun r => r.order)) =
      some (courseC8.modules.flatMap (fun m =>
        (List.range m.contentItems.length).map Int.ofNat)) := by
  obtain ⟨w, hw⟩ : ∃ w, CreateCourse courseC8 = .ok w := ⟨_, rfl⟩
  have h := C8_amended "course8/M" entriesM 0 "a.mp4" 1 courseC8 w rfl hw
  refine ⟨rfl, h.1, ?_⟩
  rw [hw]
  simp only [Except.toOption, Option.map]
  rw [h.2]


/-- A course with a non-empty title but an empty relative path. -/
def courseC9 : Course :=
  { id := "id9", title := "Course 9", relativePath := "" }

/-- C9 counterexample: `CreateCourse` accepts (and persists) a course whose
relative path is empty — only the empty-title check exists in
`CreateCourse`; the empty-relative-path rejection lives in the HTTP handler
and in `BatchImportCourses`, not here. -/
theorem C9_counterexample :
    courseC9.relativePath = "" ∧ (CreateCourse courseC9).toOption.isSome = true := by
  decide

/-- C9 (amended): `CreateCourse` rejects a course with an empty title before
performing any persistence write (the error return precedes every write in
the model), but performs no relative-path validation: every course with a
non-empty title — including one with an empty relative path — reaches the
persistence writes. -/
theorem C9_amended (course : Course) :
    (course.title = "" → CreateCourse course = .error "course title is required") ∧
    (course.title ≠ "" → ∃ w, CreateCourse course = .ok w ∧
      w.courseRow.relativePath = course.relativePath) := by
  constructor
  · intro h
    unfold CreateCourse
    rw [if_pos h]
  · intro h
    unfold CreateCourse
    rw [if_neg h]
    exact ⟨_, rfl, rfl⟩

/-- A course with an empty title, for the rejection part of the witness. -/
def courseC9b : Course := { title := "", relativePath := "p" }

/-- C9 witness: the amended validation contract evaluated at an empty-title
course and at a non-empty-title, empty-relative-path course. -/
theorem C9_witness :
    (courseC9b.title = "" ∧ CreateCourse courseC9b = .error "course title is required") ∧
    (courseC9.title ≠ "" ∧ ∃ w, CreateCourse courseC9 = .ok w ∧
      w.courseRow.relativePath = courseC9.relativePath) :=
  ⟨⟨rfl, (C9_amended courseC9b).1 rfl⟩, ⟨by decide, (C9_amended courseC9).2 (by decide)⟩⟩

/-- C10: when the requested directory is inaccessible, `ImportCourse` does
not fail immediately: it falls back to `test-course` under the parser base
path, then to the same path with a `../` prefix, importing whichever exists
as a directory; the "course directory not accessible" error is returned iff
all three stats fail.  `BatchImportCourses` likewise tries its (hardcoded)
`../courses/test-course` fallback for an inaccessible input and records a
failure only when that fallback is also inaccessible. -/
theorem C10_fallbacks (fs : FS) (basePath directoryPath : String)
    (input : CreateCourseInput) :
    (fs.stat (importFullPath fs basePath directoryPath) = none →
      fs.stat (pathJoin basePath "test-course") = some true →
      ImportCourse fs basePath directoryPath = .ok (pathJoin basePath "test-course")) ∧
    (fs.stat (importFullPath fs basePath directoryPath) = none →
      fs.stat (pathJoin basePath "test-course") = none →
      fs.stat (pathJoin "../" (pathJoin basePath "test-course")) = some true →
      ImportCourse fs basePath directoryPath =
        .ok (pathJoin "../" (pathJoin basePath "test-course"))) ∧
    (resolveImportPath fs basePath directoryPath =
        .error ("course directory not accessible: " ++
          importFullPath fs basePath directoryPath) ↔
      fs.stat (importFullPath fs basePath directoryPath) = none ∧
      fs.stat (pathJoin basePath "test-course") = none ∧
      fs.stat (pathJoin "../" (pathJoin basePath "test-course")) = none) ∧
    (input.relativePath ≠ "" →
      strStartsWith (pathJoin (if input.basePath = "" then basePath else input.basePath)
          input.relativePath) "/courses/" = false →
      fs.stat (pathJoin (if input.basePath = "" then basePath else input.basePath)
          input.relativePath) = none →
      ((fs.stat (pathJoin "../courses" "test-course")).isSome = true →
        batchImportStep fs basePath input =
          .importFrom (pathJoin "../courses" "test-course")) ∧
      (fs.stat (pathJoin "../courses" "test-course") = none →
        batchImportStep fs basePath input =
          .failure ("directory does not exist or is not accessible: " ++
            pathJoin (if input.basePath = "" then basePath else input.basePath)
              input.relativePath ++ " (original: " ++
            pathJoin (if input.basePath = "" then basePath else input.basePath)
              input.relativePath ++ ")"))) := by
  refine ⟨?_, ?_, ⟨?_, ?_⟩, ?_⟩
  · intro h1 h2
    simp [ImportCourse, resolveImportPath, h1, h2]
  · intro h1 h2 h3
    simp [ImportCourse, resolveImportPath, h1, h2, h3]
  · intro h
    cases hfull : fs.stat (importFullPath fs basePath directoryPath) with
    | some d =>
      simp only [resolveImportPath, hfull] at h
      exact Except.noConfusion h
    | none =>
      cases hfb : fs.stat (pathJoin basePath "test-course") with
      | some d =>
        simp only [resolveImportPath, hfull, hfb] at h
        exact Except.noConfusion h
      | none =>
        cases hafb : fs.stat (pathJoin "../" (pathJoin basePath "test-course")) with
        | some d =>
          simp only [resolveImportPath, hfull, hfb, hafb] at h
          exact Except.noConfusion h
        | none => exact ⟨rfl, rfl, rfl⟩
  · rintro ⟨h1, h2, h3⟩
    simp only [resolveImportPath, h1, h2, h3]
  · intro hr hnp hstat
    constructor
    · intro hsome
      simp only [batchImportStep, if_neg hr, batchAdjustPath, hnp, Bool.false_eq_true,
        if_false, hstat, Option.isSome_none, hsome, if_true]
    · intro hnone
      simp only [batchImportStep, if_neg hr, batchAdjustPath, hnp, Bool.false_eq_true,
        if_false, hstat, hnone, Option.isSome_none]

/-- Filesystem where only `test-course` under the base path exists. -/
def fsC10a : FS :=
  { stat := fun p => if p = "/data/test-course" then some true else none
    readDir := fun _ => none }

/-- Filesystem where only the `../`-prefixed fallback exists. -/
def fsC10b : FS :=
  { stat := fun p => if p = "../data/test-course" then some true else none
    readDir := fun _ => none }

/-- Filesystem where nothing is accessible. -/
def fsNone : FS :=
  { stat := fun _ => none
    readDir := fun _ => none }

/-- Filesystem where only the batch import's hardcoded fallback exists. -/
def fsBatch : FS :=
  { stat := fun p => if p = "../courses/test-course" then some true else none
    readDir := fun _ => none }

def inpC10 : CreateCourseInput := { relativePath := "missing" }

/-- C10 witness: the fallback contract evaluated on concrete filesystems
exercising each fallback and failure branch. -/
theorem C10_witness :
    (ImportCourse fsC10a "/data" "missing" = .ok (pathJoin "/data" "test-course")) ∧
    (ImportCourse fsC10b "/data" "missing" =
      .ok (pathJoin "../" (pathJoin "/data" "test-course"))) ∧
    (resolveImportPath fsNone "/data" "missing" =
      .error ("course directory not accessible: " ++ importFullPath fsNone "/data" "missing")) ∧
    (batchImportStep fsBatch "/data" inpC10 =
      .importFrom (pathJoin "../courses" "test-course")) ∧
    (batchImportStep fsNone "/data" inpC10 =
      .failure ("directory does not exist or is not accessible: " ++
        pathJoin (if inpC10.basePath = "" then "/data" else inpC10.basePath)
          inpC10.relativePath ++ " (original: " ++
        pathJoin (if inpC10.basePath = "" then "/data" else inpC10.basePath)
          inpC10.relativePath ++ ")")) :=
  ⟨(C10_fallbacks fsC10a "/data" "missing" inpC10).1 (by decide) (by decide),
   (C10_fallbacks fsC10b "/data" "missing" inpC10).2.1 (by decide) (by decide) (by decide),
   (C10_fallbacks fsNone "/data" "missing" inpC10).2.2.1.mpr ⟨rfl, rfl, rfl⟩,
   ((C10_fallbacks fsBatch "/data" "missing" inpC10).2.2.2 (by decide) (by decide)
     (by decide)).1 (by decide),
   ((C10_fallbacks fsNone "/data" "missing" inpC10).2.2.2 (by decide) (by decide)
     (by decide)).2 rfl⟩

end CMS
